import Mathlib

/-!
Verification development for the MEEF sample-analysis pipeline.

The Python sources are shallowly embedded as executable Lean definitions:

* `extract_features_from_ir` — the training-time feature extractor
  (`FeatureExtractor.extract_features_from_ir`, src/data/models/extract_features.py).
* `predSlot` / `extract_features` — the inference-time extractor
  (`MalwarePredictor.extract_features`, src/data/models/predict.py).
* `cli_update_catalog`, `updateCatalogRow`, `calculate_sha256` — the catalog store
  (`MEEFCLIProcessor` in src/meef_cli.py and `MEEFOrchestrator` in src/meef.py).
* `runParser`, `process_sample` — the analyzer adapter and per-item pipeline
  (src/meef_cli.py).
* `raceExec` — an interleaving model of the unlocked dedup-check-then-append
  sequence executed by the thread pool in `process_batch`.

Conventions: JSON numbers (ints and floats) are modelled as `ℚ`; JSON booleans
are modelled as 0/1 (Python treats `True == 1` in arithmetic, and truthiness of
a flag value is `≠ 0`).  A JSON object is an association list with distinct
keys; `Option` models a key that may be absent.  A Python exception that the
source catches around a computation is modelled by `Option` on the result.
Lean core string functions do not reduce in the kernel, so Python `str`
operations are re-implemented over `List Char` below.
-/

namespace Meef

/-! ### Python string operations over `List Char` -/

/-- ASCII upper-casing of one character, as Python `str.upper` acts on the
opcode/feature names appearing in this code base. -/
def asciiUpper (c : Char) : Char :=
  if 97 ≤ c.toNat ∧ c.toNat ≤ 122 then Char.ofNat (c.toNat - 32) else c

/-- ASCII lower-casing of one character, as Python `str.lower` acts on the
file paths appearing in this code base. -/
def asciiLower (c : Char) : Char :=
  if 65 ≤ c.toNat ∧ c.toNat ≤ 90 then Char.ofNat (c.toNat + 32) else c

/-- Python `s.upper()`. -/
def strUpper (s : String) : String := ⟨s.data.map asciiUpper⟩

/-- Python `s.lower()`. -/
def strLower (s : String) : String := ⟨s.data.map asciiLower⟩

/-- Python `s.startswith(pre)`. -/
def strStarts (s pre : String) : Bool := pre.data.isPrefixOf s.data

/-- Helper for the Python substring test: does `pat` occur in `l`? -/
def containsChars (pat : List Char) : List Char → Bool
  | [] => pat.isPrefixOf []
  | c :: cs => pat.isPrefixOf (c :: cs) || containsChars pat cs

/-- Python `pat in s` on strings. -/
def strContains (s pat : String) : Bool := containsChars pat.data s.data

/-- Fuel-driven core of Python `s.replace(pat, rep)` for a nonempty pattern:
replace every (leftmost, non-overlapping) occurrence. -/
def replFuel (pat rep : List Char) : Nat → List Char → List Char
  | _, [] => []
  | 0, l => l
  | fuel + 1, c :: cs =>
    if pat.isPrefixOf (c :: cs) then rep ++ replFuel pat rep fuel (cs.drop (pat.length - 1))
    else c :: replFuel pat rep fuel cs

/-- Python `s.replace(pat, rep)` (all the patterns used by the sources are
nonempty literals). -/
def strReplace (s pat rep : String) : String :=
  ⟨replFuel pat.data rep.data s.data.length s.data⟩

/-- Fuel-driven core of Python `s.split(sep)` for a nonempty separator. -/
def splitFuel (sep : List Char) : Nat → List Char → List Char → List (List Char)
  | _, acc, [] => [acc.reverse]
  | 0, acc, l => [acc.reverse ++ l]
  | fuel + 1, acc, c :: cs =>
    if sep.isPrefixOf (c :: cs) then acc.reverse :: splitFuel sep fuel [] (cs.drop (sep.length - 1))
    else splitFuel sep fuel (c :: acc) cs

/-- Python `s.split(sep)` for a nonempty separator. -/
def strSplit (s sep : String) : List String :=
  (splitFuel sep.data s.data.length [] s.data).map (fun l => ⟨l⟩)

/-- One decimal digit, if `c` is one. -/
def digitVal (c : Char) : Option Nat :=
  if 48 ≤ c.toNat ∧ c.toNat ≤ 57 then some (c.toNat - 48) else none

/-- Parse a nonempty all-digit string. -/
def parseDigits (l : List Char) : Option Nat :=
  if l.isEmpty then none
  else l.foldl (fun acc c =>
    match acc, digitVal c with
    | some a, some d => some (a * 10 + d)
    | _, _ => none) (some 0)

/-- Python `int(s)` on the strings this code base feeds it: an optional minus
sign followed by decimal digits; anything else raises (`none`). -/
def strToInt (s : String) : Option Int :=
  match s.data with
  | c :: rest =>
    if c.toNat = 45 then (parseDigits rest).map (fun n => -(n : Int))
    else (parseDigits (c :: rest)).map (fun n => (n : Int))
  | [] => none

/-! ### JSON objects, Python dicts and Python `sorted` -/

/-- A JSON object with numeric values: an association list with distinct keys. -/
abbrev JObj := List (String × ℚ)

/-- Python `o.get(k, d)` on a JSON object. -/
def jget (o : JObj) (k : String) (d : ℚ) : ℚ :=
  match o.lookup k with
  | some v => v
  | none => d

/-- One step of building a Python dict: a repeated key keeps its position and
takes the later value. -/
def dictIns : JObj → String × ℚ → JObj
  | [], p => [p]
  | q :: qs, p => if q.1 = p.1 then (q.1, p.2) :: qs else q :: dictIns qs p

/-- The Python dict comprehension `{name: count for (name, count) in l}`. -/
def pyDict (l : List (String × ℚ)) : JObj := l.foldl dictIns []

/-- Sum of the `count` fields, `sum(x.get('count', 0) for x in l)` (entries are
modelled with their `count` field present). -/
def sumCounts (l : List (String × ℚ)) : ℚ := (l.map Prod.snd).sum

/-- Stable descending insertion: the new element goes after every element with
a greater-or-equal key that is already placed. -/
def insertDesc (key : α → ℚ) (x : α) : List α → List α
  | [] => [x]
  | y :: ys => if key y < key x then x :: y :: ys else y :: insertDesc key x ys

/-- Python `sorted(l, key=key, reverse=True)`: the stable descending ordering. -/
def sortDesc (key : α → ℚ) (l : List α) : List α :=
  l.foldl (fun acc x => insertDesc key x acc) []

/-- Value of `l[i][1]` when `i < len(l)`, else the literal fallback `0` — the
ternary `l[i][1] if i < len(l) else 0` for a natural index. -/
def topD (l : List (String × ℚ)) (i : Nat) : ℚ :=
  if h : i < l.length then (l.get ⟨i, h⟩).2 else 0

/-- Python `l[idx]['count'] if idx < len(l) else 0` for an arbitrary integer
index: a negative index counts from the end, and an out-of-range access raises
(`none`). -/
def pyIndexSnd (l : List (String × ℚ)) (idx : Int) : Option ℚ :=
  if idx < (l.length : Int) then
    if h : 0 ≤ idx ∧ idx < (l.length : Int) then
      some (l.get ⟨idx.toNat, by omega⟩).2
    else if h2 : 0 ≤ idx + (l.length : Int) ∧ idx + (l.length : Int) < (l.length : Int) then
      some (l.get ⟨(idx + (l.length : Int)).toNat, by omega⟩).2
    else none
  else some 0

/-! ### The IR document -/

/-- A parsed IR JSON document.  `behavior` and `cfg` are `Option` because the
inference path indexes them with `ir['behavior']` / `ir['cfg']` (raising
`KeyError` when absent) while the training path uses `ir.get(..., {})`; the
`apis` and `opcodes` keys are read with `ir.get(..., [])` by both paths, so an
absent key is the same as the empty list. -/
structure IRDoc where
  behavior : Option JObj
  cfg : Option JObj
  apis : List (String × ℚ)
  opcodes : List (String × ℚ)

/-- Training-time extractor `FeatureExtractor.extract_features_from_ir`
(src/data/models/extract_features.py, lines 28–94), returned as the ordered
association list held by the Python dict `features`.  The surrounding
`try/except` only fires on I/O errors or malformed entries, which are outside
the model (documents are parsed and every API/opcode entry carries its `name`
and `count`). -/
def extract_features_from_ir (ir : IRDoc) : List (String × ℚ) :=
  let behavior := ir.behavior.getD []
  let cfg := ir.cfg.getD []
  let apis := ir.apis
  let total_api_calls := sumCounts apis
  let sorted_apis := sortDesc Prod.snd (pyDict apis)
  let opcodes := ir.opcodes
  let total_opcodes := sumCounts opcodes
  let opcode_dict := pyDict opcodes
  let call_ratio := if 0 < total_opcodes then jget opcode_dict "CALL" 0 / total_opcodes else 0
  let jmp_ratio := if 0 < total_opcodes then jget opcode_dict "JMP" 0 / total_opcodes else 0
  let api_to_opcode_ratio := if 0 < total_opcodes then total_api_calls / total_opcodes else 0
  [("uses_network", jget behavior "uses_network" 0),
   ("uses_fileops", jget behavior "uses_fileops" 0),
   ("uses_registry", jget behavior "uses_registry" 0),
   ("uses_memory", jget behavior "uses_memory" 0),
   ("uses_injection", jget behavior "uses_injection" 0),
   ("uses_crypto", jget behavior "uses_crypto" 0),
   ("uses_persist", jget behavior "uses_persist" 0),
   ("cfg_num_blocks", jget cfg "num_blocks" 0),
   ("cfg_num_edges", jget cfg "num_edges" 0),
   ("cfg_branch_density", jget cfg "branch_density" 0),
   ("cfg_cyclomatic_complexity", jget cfg "cyclomatic_complexity" 1),
   ("num_unique_apis", (apis.length : ℚ)),
   ("total_api_calls", total_api_calls),
   ("top_api_1_count", topD sorted_apis 0),
   ("top_api_2_count", topD sorted_apis 1),
   ("top_api_3_count", topD sorted_apis 2),
   ("top_api_4_count", topD sorted_apis 3),
   ("top_api_5_count", topD sorted_apis 4),
   ("top_api_6_count", topD sorted_apis 5),
   ("top_api_7_count", topD sorted_apis 6),
   ("top_api_8_count", topD sorted_apis 7),
   ("top_api_9_count", topD sorted_apis 8),
   ("top_api_10_count", topD sorted_apis 9),
   ("num_unique_opcodes", (opcodes.length : ℚ)),
   ("total_opcodes", total_opcodes),
   ("opcode_call_count", jget opcode_dict "CALL" 0),
   ("opcode_mov_count", jget opcode_dict "MOV" 0),
   ("opcode_push_count", jget opcode_dict "PUSH" 0),
   ("opcode_pop_count", jget opcode_dict "POP" 0),
   ("opcode_jmp_count", jget opcode_dict "JMP" 0),
   ("opcode_ret_count", jget opcode_dict "RET" 0),
   ("opcode_add_count", jget opcode_dict "ADD" 0),
   ("opcode_sub_count", jget opcode_dict "SUB" 0),
   ("opcode_xor_count", jget opcode_dict "XOR" 0),
   ("opcode_test_count", jget opcode_dict "TEST" 0),
   ("call_ratio", call_ratio),
   ("jmp_ratio", jmp_ratio),
   ("api_to_opcode_ratio", api_to_opcode_ratio)]

/-- The feature-schema slot names the training path produces (in insertion
order of the Python dict), i.e. the `feature_names` list that
`train_model.py` persists into `model_metadata.json`. -/
def featureNames : List String :=
  ["uses_network", "uses_fileops", "uses_registry", "uses_memory",
   "uses_injection", "uses_crypto", "uses_persist",
   "cfg_num_blocks", "cfg_num_edges", "cfg_branch_density",
   "cfg_cyclomatic_complexity",
   "num_unique_apis", "total_api_calls",
   "top_api_1_count", "top_api_2_count", "top_api_3_count", "top_api_4_count",
   "top_api_5_count", "top_api_6_count", "top_api_7_count", "top_api_8_count",
   "top_api_9_count", "top_api_10_count",
   "num_unique_opcodes", "total_opcodes",
   "opcode_call_count", "opcode_mov_count", "opcode_push_count",
   "opcode_pop_count", "opcode_jmp_count", "opcode_ret_count",
   "opcode_add_count", "opcode_sub_count", "opcode_xor_count",
   "opcode_test_count",
   "call_ratio", "jmp_ratio", "api_to_opcode_ratio"]

/-- The training-time value of one schema slot: the entry the ordered dict of
`extract_features_from_ir` holds under that name. -/
def trainValue (ir : IRDoc) (s : String) : ℚ :=
  jget (extract_features_from_ir ir) s 0

/-- One iteration of the slot loop in `MalwarePredictor.extract_features`
(src/data/models/predict.py, lines 95–147): the value appended for schema slot
`name`, or `none` when that iteration raises (`KeyError` on a missing
`behavior`/`cfg` section, `ValueError` on a malformed `top_api` name, or an
out-of-range negative index) — the surrounding `try/except` then fails the
whole extraction. -/
def predSlot (ir : IRDoc) (name : String) : Option ℚ :=
  if strStarts name "uses_" then
    match ir.behavior with
    | none => none
    | some b => some (jget b ("uses_" ++ strReplace name "uses_" "") 0)
  else if strStarts name "cfg_" then
    match ir.cfg with
    | none => none
    | some c => some (jget c (strReplace name "cfg_" "") 0)
  else if name = "num_unique_apis" then some ((ir.apis.length : ℚ))
  else if name = "total_api_calls" then some (sumCounts ir.apis)
  else if strStarts name "top_api_" then
    let parts := strSplit name "_"
    if h : 2 ≤ parts.length then
      match strToInt (parts.get ⟨parts.length - 2, by omega⟩) with
      | none => none
      | some n => pyIndexSnd (sortDesc Prod.snd ir.apis) (n - 1)
    else none
  else if name = "num_unique_opcodes" then some ((ir.opcodes.length : ℚ))
  else if name = "total_opcodes" then some (sumCounts ir.opcodes)
  else if strStarts name "opcode_" then
    some (jget (pyDict ir.opcodes) (strUpper (strReplace (strReplace name "opcode_" "") "_count" "")) 0)
  else if name = "call_ratio" ∨ name = "jmp_ratio" ∨ name = "api_to_opcode_ratio" then
    let total_opcodes := sumCounts ir.opcodes
    if 0 < total_opcodes then
      if name = "call_ratio" then some (jget (pyDict ir.opcodes) "CALL" 0 / total_opcodes)
      else if name = "jmp_ratio" then some (jget (pyDict ir.opcodes) "JMP" 0 / total_opcodes)
      else some (sumCounts ir.apis / total_opcodes)
    else some 0
  else some 0

/-- Inference-time extractor `MalwarePredictor.extract_features`: one value
appended per persisted schema slot, in schema order; any raising iteration
fails the whole vector (the surrounding `try/except` returns `None`). -/
def extract_features (ir : IRDoc) : List String → Option (List ℚ)
  | [] => some []
  | n :: rest =>
    match predSlot ir n with
    | none => none
    | some v =>
      match extract_features ir rest with
      | none => none
      | some vs => some (v :: vs)

/-! ### Hasher and catalog store -/

/-- A sample file on disk: its path and its byte content, `none` when the file
is unreadable. -/
structure SampleFile where
  path : String
  content : Option (List Nat)

/-- `calculate_sha256` (identical in `MEEFCLIProcessor`, src/meef_cli.py lines
31–41, and `MEEFOrchestrator`, src/meef.py lines 43–53): the hex digest of the
file's bytes, or the fixed literal "HASH_ERROR" when reading raises.  The
digest function itself is the out-of-scope cryptographic primitive and is a
parameter. -/
def calculate_sha256 (digest : List Nat → String) (f : SampleFile) : String :=
  match f.content with
  | some bs => digest bs
  | none => "HASH_ERROR"

/-- One row of catalog.csv (after the header). -/
structure Entry where
  sha256 : String
  label : String
  source : String
  first_seen : String
  local_path : String
  ir_path : String
  notes : String
deriving DecidableEq

/-- The catalog ledger file: missing, existing but empty, or a header followed
by data rows. -/
inductive CatalogFile where
  | absent
  | emptyFile
  | withHeader (rows : List Entry)
deriving DecidableEq

/-- The data rows of the ledger. -/
def rowsOf : CatalogFile → List Entry
  | .withHeader rows => rows
  | _ => []

/-- The dedup scan of `update_catalog`: the set `existing_hashes` built from
`row.get('sha256', '')` over the existing data rows (empty when the file is
missing or empty). -/
def existingHashes (st : CatalogFile) : List String :=
  (rowsOf st).map Entry.sha256

/-- Number of data rows carrying fingerprint `f`. -/
def countFp (st : CatalogFile) (f : String) : Nat :=
  (rowsOf st).countP (fun e => e.sha256 = f)

/-- The store-level core shared by `MEEFCLIProcessor.update_catalog`
(src/meef_cli.py lines 129–155) and `MEEFOrchestrator.update_catalog`
(src/meef.py lines 170–209): scan the existing rows, write the header if the
file is missing or empty, then append the row only when its fingerprint is not
already present. -/
def updateCatalogRow (st : CatalogFile) (e : Entry) : CatalogFile :=
  if e.sha256 ∈ existingHashes st then .withHeader (rowsOf st)
  else .withHeader (rowsOf st ++ [e])

/-- Label logic of `MEEFCLIProcessor.update_catalog` (src/meef_cli.py lines
102–108): only the default label "unknown" triggers path-based inference on
the lowercased path. -/
def cli_inferLabel (label : String) (samplePath : String) : String :=
  if label = "unknown" then
    let p := strLower samplePath
    if strContains p "malicious" || strContains p "malware" then "malicious"
    else if strContains p "benign" || strContains p "clean" then "benign"
    else "unknown"
  else label

/-- Label logic of `MEEFOrchestrator.update_catalog` (src/meef.py lines
147–151): a "malicious" or "benign" path substring overwrites the supplied
label unconditionally. -/
def orch_inferLabel (label : String) (samplePath : String) : String :=
  if strContains (strLower samplePath) "malicious" then "malicious"
  else if strContains (strLower samplePath) "benign" then "benign"
  else label

/-- Behavior-notes derivation of `MEEFCLIProcessor.update_catalog`
(src/meef_cli.py lines 110–127): read the IR document (any failure leaves the
note list empty), collect the tokens of the truthy flags, join them or fall
back to "none". -/
def cli_behaviorNotes (ird : Option IRDoc) : String :=
  let toks :=
    match ird with
    | none => []
    | some ir =>
      let b := ir.behavior.getD []
      [("uses_network", "network"), ("uses_fileops", "fileops"),
       ("uses_registry", "registry"), ("uses_memory", "memory"),
       ("uses_injection", "injection"), ("uses_crypto", "crypto"),
       ("uses_persist", "persistence")].filterMap
        (fun p => if jget b p.1 0 ≠ 0 then some p.2 else none)
  if toks = [] then "none" else String.intercalate ", " toks

/-- The row `MEEFCLIProcessor.update_catalog` would append: fingerprint from
the hasher, label after inference, fixed source "local", timestamp `now`,
paths, derived notes. -/
def cli_catalogEntry (digest : List Nat → String) (sample : SampleFile)
    (irPath : String) (ird : Option IRDoc) (label now : String) : Entry :=
  ⟨calculate_sha256 digest sample, cli_inferLabel label sample.path, "local",
   now, sample.path, irPath, cli_behaviorNotes ird⟩

/-- `MEEFCLIProcessor.update_catalog` (src/meef_cli.py lines 96–155): hash the
sample, resolve the label and notes, then run the dedup-check-then-append
sequence.  `now` stands for the wall-clock timestamp. -/
def cli_update_catalog (digest : List Nat → String) (st : CatalogFile)
    (sample : SampleFile) (irPath : String) (ird : Option IRDoc)
    (label now : String) : CatalogFile :=
  updateCatalogRow st (cli_catalogEntry digest sample irPath ird label now)

/-- Behavior-notes derivation of `MEEFOrchestrator.update_catalog`
(src/meef.py lines 153–168): same shape as the CLI variant but with only the
network/fileops/injection/crypto tokens. -/
def orch_behaviorNotes (ird : Option IRDoc) : String :=
  let toks :=
    match ird with
    | none => []
    | some ir =>
      let b := ir.behavior.getD []
      [("uses_network", "network"), ("uses_fileops", "fileops"),
       ("uses_injection", "injection"), ("uses_crypto", "crypto")].filterMap
        (fun p => if jget b p.1 0 ≠ 0 then some p.2 else none)
  if toks = [] then "none" else String.intercalate ", " toks

/-- The row `MEEFOrchestrator.update_catalog` would append. -/
def orch_catalogEntry (digest : List Nat → String) (sample : SampleFile)
    (irPath : String) (ird : Option IRDoc) (label now : String) : Entry :=
  ⟨calculate_sha256 digest sample, orch_inferLabel label sample.path, "local",
   now, sample.path, irPath, orch_behaviorNotes ird⟩

/-- `MEEFOrchestrator.update_catalog` (src/meef.py lines 141–209). -/
def orch_update_catalog (digest : List Nat → String) (st : CatalogFile)
    (sample : SampleFile) (irPath : String) (ird : Option IRDoc)
    (label now : String) : CatalogFile :=
  updateCatalogRow st (orch_catalogEntry digest sample irPath ird label now)

/-! ### Analyzer adapter and per-item pipeline (src/meef_cli.py) -/

/-- Outcome of the `subprocess.run` call inside `run_parser`: it timed out, it
raised some other exception, or it completed with an exit code. -/
inductive ProcResult where
  | timeout
  | raised
  | exited (code : Int)
deriving DecidableEq

/-- Environment of one analyzer invocation: whether the parser binary is on
disk, what the subprocess did, and whether the output artifact exists on disk
afterwards. -/
structure ParseEnv where
  parserOnDisk : Bool
  result : ProcResult
  artifactAfter : Bool
deriving DecidableEq

/-- The distinct reports `run_parser` can emit (each branch of the source
prints a distinct diagnostic before returning False, and only the fall-through
returns True). -/
inductive ParseOutcome where
  | ok
  | parserMissing
  | toolFailed
  | timedOut
  | excepted
deriving DecidableEq

/-- `MEEFCLIProcessor.run_parser` (src/meef_cli.py lines 63–94) as its outcome
classification: missing binary, timeout and other exceptions are distinct
failure reports; a completed subprocess fails iff its exit code is nonzero.
The existence of the output artifact is never consulted. -/
def runParser (env : ParseEnv) : ParseOutcome :=
  if !env.parserOnDisk then .parserMissing
  else
    match env.result with
    | .timeout => .timedOut
    | .raised => .excepted
    | .exited code => if code ≠ 0 then .toolFailed else .ok

/-- The boolean `run_parser` actually returns. -/
def runParserOk (env : ParseEnv) : Bool := runParser env == .ok

/-- The success test of the inference-path adapter
`MalwarePredictor.process_sample` (src/data/models/predict.py lines 72–83):
`result.returncode != 0 or not ir_file.exists()` is failure. -/
def predict_parseOk (code : Int) (artifactAfter : Bool) : Bool :=
  decide (code = 0) && artifactAfter

/-- `MEEFCLIProcessor.process_sample` (src/meef_cli.py lines 157–179):
run the parser; on success optionally update the catalog and return True, on
any failure leave the catalog alone and return False. -/
def process_sample (digest : List Nat → String) (env : ParseEnv)
    (st : CatalogFile) (sample : SampleFile) (irPath : String)
    (ird : Option IRDoc) (label now : String) (updateCat : Bool) :
    Bool × CatalogFile :=
  if runParserOk env then
    (true, if updateCat then cli_update_catalog digest st sample irPath ird label now else st)
  else (false, st)

/-- The training dataset `FeatureExtractor.extract_all_features` builds from a
catalog: one feature row per catalog entry whose IR artifact is still readable
(`irOf` plays the file system).  Rows exist only for catalog entries. -/
def featureDataset (irOf : String → Option IRDoc) (st : CatalogFile) :
    List (String × List (String × ℚ)) :=
  (rowsOf st).filterMap
    (fun e => (irOf e.ir_path).map (fun ir => (e.sha256, extract_features_from_ir ir)))

/-! ### Dry run and the batch driver (src/meef_cli.py `main`) -/

/-- Python `pathlib.Path(p).name`. -/
def fileNameOf (p : String) : String := (strSplit p "/").getLastD p

/-- Python `pathlib.Path(p).stem`: the file name minus its last suffix (a
leading dot alone does not start a suffix). -/
def stemOf (p : String) : String :=
  let n := fileNameOf p
  match strSplit n "." with
  | [] => n
  | [_] => n
  | "" :: [_] => n
  | parts => String.intercalate "." parts.dropLast

/-- The IR artifact path `main` plans and `process_sample` uses:
`output_dir / (stem + "_ir.json")`. -/
def irPathFor (outputDir : String) (samplePath : String) : String :=
  outputDir ++ "/" ++ stemOf samplePath ++ "_ir.json"

/-- Observable effects of one `main` run after sample discovery. -/
structure MainEffects where
  plannedMappings : List (String × String)
  toolInvocations : List (String × String)
  catalog : CatalogFile
deriving DecidableEq

/-- The tail of `main` (src/meef_cli.py lines 311–328) after the sample list
has been collected, with `parallel = 1`: in dry-run mode print one
input-to-artifact mapping per sample and exit before any processing;
otherwise run the sequential batch, invoking the analyzer subprocess once per
sample for which the parser binary is found (`envOf`/`irdOf` play the
environment of each invocation). -/
def mainAfterDiscovery (dryRun : Bool) (digest : List Nat → String)
    (envOf : SampleFile → ParseEnv) (irdOf : SampleFile → Option IRDoc)
    (outputDir : String) (samples : List SampleFile) (label now : String)
    (updateCat : Bool) (st : CatalogFile) : MainEffects :=
  if dryRun then
    { plannedMappings := samples.map (fun s => (s.path, irPathFor outputDir s.path)),
      toolInvocations := [],
      catalog := st }
  else
    samples.foldl
      (fun acc s =>
        let env := envOf s
        let irPath := irPathFor outputDir s.path
        { plannedMappings := acc.plannedMappings,
          toolInvocations :=
            acc.toolInvocations ++ (if env.parserOnDisk then [(s.path, irPath)] else []),
          catalog := (process_sample digest env acc.catalog s irPath (irdOf s) label now updateCat).2 })
      { plannedMappings := [], toolInvocations := [], catalog := st }

/-! ### Interleaving model of the unlocked dedup-check-then-append race

`process_batch` (src/meef_cli.py lines 187–208) dispatches `process_sample`
to a thread pool with no lock around `update_catalog`.  Each worker's
dedup-check-then-append therefore splits into two separately scheduled steps:
reading `existing_hashes` from the ledger, then conditionally appending based
on that (possibly stale) snapshot. -/

/-- Progress of one worker through its `update_catalog`. -/
inductive Phase where
  | start
  | readDone (snapshot : List String)
  | finished
deriving DecidableEq

/-- One scheduled step of worker `w`: take the snapshot on its first turn,
write the header and conditionally append on its second. -/
def raceStep (tasks : List Entry) (s : CatalogFile × List Phase) (w : Nat) :
    CatalogFile × List Phase :=
  match tasks.get? w, s.2.get? w with
  | some _, some .start => (s.1, s.2.set w (.readDone (existingHashes s.1)))
  | some e, some (.readDone snap) =>
    ((if e.sha256 ∈ snap then CatalogFile.withHeader (rowsOf s.1)
      else .withHeader (rowsOf s.1 ++ [e])), s.2.set w .finished)
  | _, _ => s

/-- Run the workers under an explicit interleaving: `sched` lists which worker
acts at each step. -/
def raceExec (tasks : List Entry) (st : CatalogFile) (sched : List Nat) : CatalogFile :=
  (sched.foldl (raceStep tasks) (st, tasks.map (fun _ => Phase.start))).1

end Meef

namespace Meef

/-! ### Helper lemmas -/

/-- When the key is present, the default of a `get` is irrelevant. -/
theorem jget_congr (o : JObj) (k : String) (d d' : ℚ) (h : (o.lookup k).isSome) :
    jget o k d = jget o k d' := by
  rcases ho : o.lookup k with _ | v
  · rw [ho] at h; simp at h
  · simp [jget, ho]

/-- When the key is absent, `get` returns its default. -/
theorem jget_none (o : JObj) (k : String) (d : ℚ) (h : o.lookup k = none) :
    jget o k d = d := by
  simp [jget, h]

/-- Inserting a fresh key into a Python dict appends it. -/
theorem dictIns_of_not_mem (acc : JObj) (p : String × ℚ) (h : p.1 ∉ acc.map Prod.fst) :
    dictIns acc p = acc ++ [p] := by
  induction acc with
  | nil => rfl
  | cons q qs ih =>
    simp only [List.map_cons, List.mem_cons] at h
    push_neg at h
    rw [dictIns, if_neg (fun hq => h.1 hq.symm), ih h.2]
    rfl

/-- Accumulator form of `pyDict_eq_self`. -/
theorem foldl_dictIns_eq_append :
    ∀ (l acc : JObj), ((acc ++ l).map Prod.fst).Nodup → l.foldl dictIns acc = acc ++ l := by
  intro l
  induction l with
  | nil => intro acc _; simp
  | cons p ps ih =>
    intro acc hacc
    have hmem : p.1 ∉ acc.map Prod.fst := by
      simp only [List.map_append, List.map_cons] at hacc
      intro hm
      exact absurd ((List.disjoint_of_nodup_append hacc) hm) (by simp)
    rw [List.foldl_cons, dictIns_of_not_mem acc p hmem,
      ih (acc ++ [p]) (by simpa using hacc), List.append_assoc]
    rfl

/-- Building a Python dict from pairs with distinct keys is the identity. -/
theorem pyDict_eq_self (l : List (String × ℚ)) (h : (l.map Prod.fst).Nodup) :
    pyDict l = l :=
  foldl_dictIns_eq_append l [] (by simpa using h)

/-- On a natural index, the Python conditional indexing agrees with `topD`. -/
theorem pyIndexSnd_natCast (l : List (String × ℚ)) (k : Nat) :
    pyIndexSnd l (k : Int) = some (topD l k) := by
  by_cases h : k < l.length
  · have hk : ((k : Int)) < (l.length : Int) := by exact_mod_cast h
    rw [pyIndexSnd, if_pos hk, dif_pos ⟨Int.natCast_nonneg k, hk⟩]
    simp [topD, h, Int.toNat_natCast]
  · have hk : ¬ ((k : Int) < (l.length : Int)) := by exact_mod_cast h
    rw [pyIndexSnd, if_neg hk]
    simp [topD, Nat.le_of_not_lt h, h]

/-- The `top_api` slot of the inference path equals the training-path value
once duplicate API names are ruled out. -/
theorem predTop_eq_train (apis : List (String × ℚ))
    (h : (apis.map Prod.fst).Nodup) (k : Nat) :
    pyIndexSnd (sortDesc Prod.snd apis) (k : Int) =
      some (topD (sortDesc Prod.snd (pyDict apis)) k) := by
  rw [pyDict_eq_self apis h, pyIndexSnd_natCast]

/-- Commuting `some` with a two-sided conditional. -/
theorem ite_some_eq (p : Prop) [Decidable p] (x y : ℚ) :
    (if p then some x else some y) = some (if p then x else y) := by
  split <;> rfl

/-- A ratio with zero denominator takes the guarded branch. -/
theorem ite_lt_zero_q (t x : ℚ) (h : t = 0) : (if 0 < t then x else 0) = 0 := by
  rw [h, if_neg (lt_irrefl 0)]

/-- Option-valued form of `ite_lt_zero_q`. -/
theorem ite_lt_zero_opt (t : ℚ) (x : Option ℚ) (h : t = 0) :
    (if 0 < t then x else some 0) = some 0 := by
  rw [h, if_neg (lt_irrefl 0)]

/-- A fingerprint is among the scanned hashes iff some row carries it. -/
theorem countFp_pos_iff_mem (st : CatalogFile) (f : String) :
    f ∈ existingHashes st ↔ 0 < countFp st f := by
  simp [existingHashes, countFp, List.countP_pos_iff, List.mem_map, eq_comm]

/-- Row count after one dedup-check-then-append. -/
theorem updateCatalogRow_count (st : CatalogFile) (e : Entry) (f : String) :
    countFp (updateCatalogRow st e) f =
      if e.sha256 ∈ existingHashes st then countFp st f
      else countFp st f + (if e.sha256 = f then 1 else 0) := by
  by_cases h : e.sha256 ∈ existingHashes st <;>
    simp [updateCatalogRow, h, countFp, rowsOf, List.countP_append, List.countP_cons]

/-- Re-processing an already-present fingerprint leaves the ledger unchanged. -/
theorem updateCatalogRow_noop (st : CatalogFile) (e : Entry)
    (h : e.sha256 ∈ existingHashes st) : updateCatalogRow st e = st := by
  cases st with
  | absent => simp [existingHashes, rowsOf] at h
  | emptyFile => simp [existingHashes, rowsOf] at h
  | withHeader rows => simp [updateCatalogRow, h, rowsOf]

/-- One update preserves the at-most-one-row-per-fingerprint invariant. -/
theorem updateCatalogRow_count_le (st : CatalogFile) (e : Entry) (f : String)
    (h : countFp st f ≤ 1) : countFp (updateCatalogRow st e) f ≤ 1 := by
  rw [updateCatalogRow_count]
  by_cases hmem : e.sha256 ∈ existingHashes st
  · rw [if_pos hmem]; exact h
  · rw [if_neg hmem]
    by_cases hf : e.sha256 = f
    · have h0 : countFp st f = 0 := by
        by_contra hne
        exact hmem (hf ▸ ((countFp_pos_iff_mem st f).mpr (Nat.pos_of_ne_zero hne)))
      simp [h0, hf]
    · simp [hf, h]

/-- Any sequence of updates preserves the dedup invariant. -/
theorem foldl_updateCatalogRow_le (f : String) :
    ∀ (es : List Entry) (st : CatalogFile), countFp st f ≤ 1 →
      countFp (es.foldl updateCatalogRow st) f ≤ 1
  | [], _, h => h
  | e :: es, st, h =>
    foldl_updateCatalogRow_le f es _ (updateCatalogRow_count_le st e f h)

/-- After an update for fingerprint `f` on a duplicate-free ledger, exactly
one row carries `f`. -/
theorem updateCatalogRow_count_eq_one (st : CatalogFile) (e : Entry) (f : String)
    (he : e.sha256 = f) (h : countFp st f ≤ 1) :
    countFp (updateCatalogRow st e) f = 1 := by
  rw [updateCatalogRow_count]
  by_cases hmem : e.sha256 ∈ existingHashes st
  · rw [if_pos hmem]
    have : 0 < countFp st f := (countFp_pos_iff_mem st f).mp (he ▸ hmem)
    omega
  · rw [if_neg hmem, if_pos he]
    have : ¬ 0 < countFp st f := fun hp => hmem (he ▸ ((countFp_pos_iff_mem st f).mpr hp))
    omega

/-- Once exactly one row carries `f`, further updates for `f` keep it at one. -/
theorem foldl_updateCatalogRow_one (f : String) :
    ∀ (es : List Entry) (st : CatalogFile), (∀ e ∈ es, e.sha256 = f) →
      countFp st f = 1 → countFp (es.foldl updateCatalogRow st) f = 1
  | [], _, _, h => h
  | e :: es, st, hall, h =>
    foldl_updateCatalogRow_one f es _
      (fun x hx => hall x (List.mem_cons_of_mem e hx))
      (updateCatalogRow_count_eq_one st e f (hall e (List.mem_cons_self e es)) h.le)

end Meef

section SanityChecks

open Meef

example : strReplace "opcode_call_count" "opcode_" "" = "call_count" := by decide
example : strUpper (strReplace (strReplace "opcode_call_count" "opcode_" "") "_count" "") = "CALL" := by decide
example : strSplit "top_api_3_count" "_" = ["top", "api", "3", "count"] := by decide
example : strToInt "3" = some 3 := by decide
example : strContains (strLower "Samples/MALICIOUS/a.asm") "malicious" = true := by decide
example : pyDict [("A", 5), ("A", 3)] = [("A", 3)] := by decide
example : sortDesc Prod.snd [("A", 3), ("B", 5)] = [("B", 5), ("A", 3)] := by decide
example :
    predSlot ⟨some [], some [], [], []⟩ "cfg_cyclomatic_complexity" = some 0 := by decide
example :
    trainValue ⟨some [], some [], [], []⟩ "cfg_cyclomatic_complexity" = 1 := by decide
example :
    extract_features ⟨some [], some [], [], []⟩ ["num_unique_apis"] = some [0] := by decide

example :
    raceExec [⟨"f", "unknown", "local", "t", "p", "q", "none"⟩,
              ⟨"f", "unknown", "local", "t", "p", "q", "none"⟩]
      .absent [0, 1, 0, 1] =
    .withHeader [⟨"f", "unknown", "local", "t", "p", "q", "none"⟩,
                 ⟨"f", "unknown", "local", "t", "p", "q", "none"⟩] := by decide

example :
    raceExec [⟨"f", "unknown", "local", "t", "p", "q", "none"⟩,
              ⟨"f", "unknown", "local", "t", "p", "q", "none"⟩]
      .absent [0, 0, 1, 1] =
    .withHeader [⟨"f", "unknown", "local", "t", "p", "q", "none"⟩] := by decide

example : stemOf "samples/dummy/test.asm" = "test" := by decide
example : irPathFor "./output/ir_results" "samples/a.b.asm" = "./output/ir_results/a.b_ir.json" := by decide
example : cli_inferLabel "benign" "x/malware/a.asm" = "benign" := by decide
example : cli_inferLabel "unknown" "x/MALWARE/a.asm" = "malicious" := by decide
example : orch_inferLabel "dummy" "samples/malicious/a.asm" = "malicious" := by decide
example : orch_inferLabel "unknown" "samples/clean/a.asm" = "unknown" := by decide

example :
    (extract_features_from_ir ⟨none, none, [], []⟩).map Prod.fst = featureNames := by
  decide

example :
    trainValue ⟨some [], some [], [("GetProcAddress", 4)], []⟩ "top_api_2_count" = 0 := by
  decide

example :
    predSlot ⟨some [], some [], [("GetProcAddress", 4)], []⟩ "top_api_2_count" = some 0 := by
  decide

end SanityChecks

open Meef

/-- C1: the claim asserts that for every IR document and schema slot the
training-path value equals the inference-path value, in particular that both
paths use the same default for an absent CFG scalar.  This is false: the
training path defaults an absent `cyclomatic_complexity` to 1.0
(extract_features.py line 51) while the inference path defaults every absent
CFG scalar to 0 (predict.py line 104), so on a document whose `cfg` section
lacks that key the two paths disagree on slot `cfg_cyclomatic_complexity`. -/
theorem c1_cyclomatic_default_divergence_cex :
    "cfg_cyclomatic_complexity" ∈ featureNames ∧
      predSlot ⟨some [], some [], [], []⟩ "cfg_cyclomatic_complexity" ≠
        some (trainValue ⟨some [], some [], [], []⟩ "cfg_cyclomatic_complexity") := by
  decide

/-- C1 (amended): for every IR document whose `behavior` and `cfg` sections
are present, whose `cfg` defines `cyclomatic_complexity`, and whose API names
are pairwise distinct, the inference-path extractor computes exactly the
training-path value on every feature-schema slot — same defaults, same
top-K ranking of API counts, same derived-ratio definitions. -/
theorem c1_slot_agreement_amended (b c : JObj) (apis opcodes : List (String × ℚ))
    (hcyc : (c.lookup "cyclomatic_complexity").isSome)
    (hnodup : (apis.map Prod.fst).Nodup)
    (s : String) (hs : s ∈ featureNames) :
    predSlot ⟨some b, some c, apis, opcodes⟩ s =
      some (trainValue ⟨some b, some c, apis, opcodes⟩ s) := by
  fin_cases hs
  · rfl
  · rfl
  · rfl
  · rfl
  · rfl
  · rfl
  · rfl
  · rfl
  · rfl
  · rfl
  · exact congrArg some (jget_congr c "cyclomatic_complexity" 0 1 hcyc)
  · rfl
  · rfl
  · exact predTop_eq_train apis hnodup 0
  · exact predTop_eq_train apis hnodup 1
  · exact predTop_eq_train apis hnodup 2
  · exact predTop_eq_train apis hnodup 3
  · exact predTop_eq_train apis hnodup 4
  · exact predTop_eq_train apis hnodup 5
  · exact predTop_eq_train apis hnodup 6
  · exact predTop_eq_train apis hnodup 7
  · exact predTop_eq_train apis hnodup 8
  · exact predTop_eq_train apis hnodup 9
  · rfl
  · rfl
  · rfl
  · rfl
  · rfl
  · rfl
  · rfl
  · rfl
  · rfl
  · rfl
  · rfl
  · rfl
  · exact ite_some_eq _ _ _
  · exact ite_some_eq _ _ _
  · exact ite_some_eq _ _ _

/-- C1 witness: the amended equivalence evaluated at a concrete document that
defines its cyclomatic complexity and has distinct API names. -/
theorem c1_slot_agreement_witness :
    predSlot ⟨some [], some [("cyclomatic_complexity", 7)], [("A", 2)], []⟩
        "cfg_cyclomatic_complexity" =
      some (trainValue ⟨some [], some [("cyclomatic_complexity", 7)], [("A", 2)], []⟩
        "cfg_cyclomatic_complexity") :=
  c1_slot_agreement_amended [] [("cyclomatic_complexity", 7)] [("A", 2)] []
    (by decide) (by decide) "cfg_cyclomatic_complexity" (by decide)

/-- C2: the claim asserts the adapter reports success iff the exit status is
the ok code AND the output artifact exists afterwards.  This is false for
`MEEFCLIProcessor.run_parser`, which never consults the artifact: with the
parser binary present, a zero exit status and no artifact on disk it still
reports success. -/
theorem c2_zero_exit_missing_artifact_cex :
    ¬ (runParserOk ⟨true, .exited 0, false⟩ = true ↔
        ((⟨true, .exited 0, false⟩ : ParseEnv).result = .exited 0 ∧
         (⟨true, .exited 0, false⟩ : ParseEnv).artifactAfter = true)) := by
  decide

/-- C2 (amended): the two adapters differ.  The CLI adapter
(`MEEFCLIProcessor.run_parser`) reports success iff the parser binary is on
disk and the subprocess exits with status 0, never checking the artifact;
only the inference-path adapter (`MalwarePredictor.process_sample`) requires
in addition that the output artifact exists on disk afterwards. -/
theorem c2_adapter_success_amended :
    (∀ env : ParseEnv,
       runParserOk env = true ↔ (env.parserOnDisk = true ∧ env.result = .exited 0)) ∧
    (∀ (code : Int) (a : Bool),
       predict_parseOk code a = true ↔ (code = 0 ∧ a = true)) := by
  constructor
  · intro env
    rcases env with ⟨pd, res, art⟩
    cases pd
    · cases res <;> simp [runParserOk, runParser]
    · cases res with
      | timeout => simp [runParserOk, runParser]
      | raised => simp [runParserOk, runParser]
      | exited code => by_cases hc : code = 0 <;> simp [runParserOk, runParser, hc]
  · intro code a
    cases a <;> simp [predict_parseOk]

/-- C2 witness: the amended characterizations evaluated on a concrete
successful invocation. -/
theorem c2_adapter_success_witness :
    (runParserOk ⟨true, .exited 0, true⟩ = true ↔
       ((⟨true, .exited 0, true⟩ : ParseEnv).parserOnDisk = true ∧
        (⟨true, .exited 0, true⟩ : ParseEnv).result = .exited 0)) ∧
    (predict_parseOk 0 false = true ↔ ((0 : Int) = 0 ∧ false = true)) :=
  ⟨c2_adapter_success_amended.1 ⟨true, .exited 0, true⟩,
   c2_adapter_success_amended.2 0 false⟩

/-- C3: the claim asserts that starting from ANY catalog state, a nonempty
sequence of successful analyses with fingerprint f leaves exactly one row for
f.  This is false for a start state that already holds duplicate rows for f
(the code only refrains from appending; it never repairs pre-existing
duplicates, which the spec says can only arise from external manual edits):
here two rows remain. -/
theorem c3_duplicate_start_state_cex :
    (∀ e ∈ [(⟨"f0", "unknown", "local", "t", "p", "q", "none"⟩ : Entry)],
       e.sha256 = "f0") ∧
    ([(⟨"f0", "unknown", "local", "t", "p", "q", "none"⟩ : Entry)] ≠ []) ∧
    countFp
      ([(⟨"f0", "unknown", "local", "t", "p", "q", "none"⟩ : Entry)].foldl
        updateCatalogRow
        (.withHeader [⟨"f0", "unknown", "local", "t", "p", "q", "none"⟩,
                      ⟨"f0", "unknown", "local", "t", "p", "q", "none"⟩]))
      "f0" ≠ 1 := by
  decide

/-- C3 (amended): starting from any catalog state holding at most one row for
fingerprint f, any nonempty sequence of successful analyses of samples with
fingerprint f ends with exactly one row for f; moreover re-processing any
already-cataloged fingerprint is a no-op on the ledger. -/
theorem c3_catalog_dedup_amended (f : String) (es : List Entry) (st : CatalogFile)
    (hall : ∀ e ∈ es, e.sha256 = f) (hne : es ≠ [])
    (hstart : countFp st f ≤ 1) :
    countFp (es.foldl updateCatalogRow st) f = 1 ∧
      ∀ (st' : CatalogFile) (e : Entry), e.sha256 ∈ existingHashes st' →
        updateCatalogRow st' e = st' := by
  refine ⟨?_, fun st' e h => updateCatalogRow_noop st' e h⟩
  cases es with
  | nil => exact absurd rfl hne
  | cons e es =>
    rw [List.foldl_cons]
    exact foldl_updateCatalogRow_one f es _
      (fun x hx => hall x (List.mem_cons_of_mem e hx))
      (updateCatalogRow_count_eq_one st e f (hall e (List.mem_cons_self e es)) hstart)

/-- C3 witness: one successful analysis into an absent ledger yields exactly
one row, and re-processing it is a no-op. -/
theorem c3_catalog_dedup_witness :
    countFp ([(⟨"f0", "b", "local", "t", "p", "q", "none"⟩ : Entry)].foldl
        updateCatalogRow .absent) "f0" = 1 ∧
    updateCatalogRow (.withHeader [⟨"f0", "b", "local", "t", "p", "q", "none"⟩])
        ⟨"f0", "b", "local", "t", "p", "q", "none"⟩ =
      .withHeader [⟨"f0", "b", "local", "t", "p", "q", "none"⟩] :=
  ⟨(c3_catalog_dedup_amended "f0" [⟨"f0", "b", "local", "t", "p", "q", "none"⟩]
      .absent (by decide) (by decide) (by decide)).1,
   (c3_catalog_dedup_amended "f0" [⟨"f0", "b", "local", "t", "p", "q", "none"⟩]
      .absent (by decide) (by decide) (by decide)).2
     (.withHeader [⟨"f0", "b", "local", "t", "p", "q", "none"⟩])
     ⟨"f0", "b", "local", "t", "p", "q", "none"⟩ (by decide)⟩

/-- C4: whenever the inference-path extraction succeeds, the feature vector
has exactly one entry per schema slot, in schema order. -/
theorem c4_vector_length : ∀ (names : List String) (ir : IRDoc) (v : List ℚ),
    extract_features ir names = some v → v.length = names.length := by
  intro names
  induction names with
  | nil =>
    intro ir v h
    rw [extract_features] at h
    injection h with h
    simp [h.symm]
  | cons n ns ih =>
    intro ir v h
    rw [extract_features] at h
    rcases hp : predSlot ir n with _ | val <;> rw [hp] at h
    · cases h
    · rcases he : extract_features ir ns with _ | vs <;> rw [he] at h
      · cases h
      · injection h with h
        rw [h.symm, List.length_cons, List.length_cons, ih ir vs he]

/-- C4 witness: a concrete two-slot schema evaluated on a concrete document. -/
theorem c4_vector_length_witness :
    extract_features (⟨some [], some [], [], []⟩ : IRDoc)
        ["num_unique_apis", "total_opcodes"] = some [0, 0] ∧
    ([0, 0] : List ℚ).length = ["num_unique_apis", "total_opcodes"].length :=
  ⟨by decide,
   c4_vector_length ["num_unique_apis", "total_opcodes"]
     ⟨some [], some [], [], []⟩ [0, 0] (by decide)⟩

/-- C5: the claim asserts that any field absent from the document — including
any CFG scalar — yields the value zero on both extraction paths.  This is
false on the training path: an absent `cyclomatic_complexity` yields 1.0, not
0 (extract_features.py line 51). -/
theorem c5_cyclomatic_nonzero_default_cex :
    (([] : JObj).lookup "cyclomatic_complexity" = none) ∧
      trainValue ⟨some [], some [], [], []⟩ "cfg_cyclomatic_complexity" ≠ 0 := by
  decide

/-- C5 (amended): on documents whose `behavior` and `cfg` sections are
present, extraction is total on missing data on both paths: an absent
behavior flag yields 0, an absent CFG scalar yields 0 — except
`cyclomatic_complexity`, which defaults to 1.0 at training time and 0 at
inference time — an opcode absent from the opcode list yields 0 for its count
slot, a top-K API slot beyond the recorded APIs yields 0, and every derived
ratio whose denominator (the total opcode count) is zero yields 0 instead of
a division error. -/
theorem c5_missing_data_defaults_amended (b c : JObj) (apis opcodes : List (String × ℚ)) :
    (∀ s ∈ ["uses_network", "uses_fileops", "uses_registry", "uses_memory",
            "uses_injection", "uses_crypto", "uses_persist"],
       b.lookup s = none →
         trainValue ⟨some b, some c, apis, opcodes⟩ s = 0 ∧
         predSlot ⟨some b, some c, apis, opcodes⟩ s = some 0) ∧
    (c.lookup "num_blocks" = none →
       trainValue ⟨some b, some c, apis, opcodes⟩ "cfg_num_blocks" = 0 ∧
       predSlot ⟨some b, some c, apis, opcodes⟩ "cfg_num_blocks" = some 0) ∧
    (c.lookup "num_edges" = none →
       trainValue ⟨some b, some c, apis, opcodes⟩ "cfg_num_edges" = 0 ∧
       predSlot ⟨some b, some c, apis, opcodes⟩ "cfg_num_edges" = some 0) ∧
    (c.lookup "branch_density" = none →
       trainValue ⟨some b, some c, apis, opcodes⟩ "cfg_branch_density" = 0 ∧
       predSlot ⟨some b, some c, apis, opcodes⟩ "cfg_branch_density" = some 0) ∧
    (c.lookup "cyclomatic_complexity" = none →
       trainValue ⟨some b, some c, apis, opcodes⟩ "cfg_cyclomatic_complexity" = 1 ∧
       predSlot ⟨some b, some c, apis, opcodes⟩ "cfg_cyclomatic_complexity" = some 0) ∧
    ((pyDict opcodes).lookup "CALL" = none →
       trainValue ⟨some b, some c, apis, opcodes⟩ "opcode_call_count" = 0 ∧
       predSlot ⟨some b, some c, apis, opcodes⟩ "opcode_call_count" = some 0) ∧
    (apis = [] →
       trainValue ⟨some b, some c, apis, opcodes⟩ "top_api_1_count" = 0 ∧
       predSlot ⟨some b, some c, apis, opcodes⟩ "top_api_1_count" = some 0) ∧
    (sumCounts opcodes = 0 →
       (trainValue ⟨some b, some c, apis, opcodes⟩ "call_ratio" = 0 ∧
        predSlot ⟨some b, some c, apis, opcodes⟩ "call_ratio" = some 0) ∧
       (trainValue ⟨some b, some c, apis, opcodes⟩ "jmp_ratio" = 0 ∧
        predSlot ⟨some b, some c, apis, opcodes⟩ "jmp_ratio" = some 0) ∧
       (trainValue ⟨some b, some c, apis, opcodes⟩ "api_to_opcode_ratio" = 0 ∧
        predSlot ⟨some b, some c, apis, opcodes⟩ "api_to_opcode_ratio" = some 0)) := by
  refine ⟨?_, ?_, ?_, ?_, ?_, ?_, ?_, ?_⟩
  · intro s hs hlook
    fin_cases hs
    · exact ⟨jget_none b "uses_network" 0 hlook,
        congrArg some (jget_none b "uses_network" 0 hlook)⟩
    · exact ⟨jget_none b "uses_fileops" 0 hlook,
        congrArg some (jget_none b "uses_fileops" 0 hlook)⟩
    · exact ⟨jget_none b "uses_registry" 0 hlook,
        congrArg some (jget_none b "uses_registry" 0 hlook)⟩
    · exact ⟨jget_none b "uses_memory" 0 hlook,
        congrArg some (jget_none b "uses_memory" 0 hlook)⟩
    · exact ⟨jget_none b "uses_injection" 0 hlook,
        congrArg some (jget_none b "uses_injection" 0 hlook)⟩
    · exact ⟨jget_none b "uses_crypto" 0 hlook,
        congrArg some (jget_none b "uses_crypto" 0 hlook)⟩
    · exact ⟨jget_none b "uses_persist" 0 hlook,
        congrArg some (jget_none b "uses_persist" 0 hlook)⟩
  · intro h
    exact ⟨jget_none c "num_blocks" 0 h, congrArg some (jget_none c "num_blocks" 0 h)⟩
  · intro h
    exact ⟨jget_none c "num_edges" 0 h, congrArg some (jget_none c "num_edges" 0 h)⟩
  · intro h
    exact ⟨jget_none c "branch_density" 0 h,
      congrArg some (jget_none c "branch_density" 0 h)⟩
  · intro h
    exact ⟨jget_none c "cyclomatic_complexity" 1 h,
      congrArg some (jget_none c "cyclomatic_complexity" 0 h)⟩
  · intro h
    exact ⟨jget_none (pyDict opcodes) "CALL" 0 h,
      congrArg some (jget_none (pyDict opcodes) "CALL" 0 h)⟩
  · intro h
    subst h
    exact ⟨rfl, rfl⟩
  · intro h
    exact ⟨⟨ite_lt_zero_q _ _ h, ite_lt_zero_opt _ _ h⟩,
      ⟨ite_lt_zero_q _ _ h, ite_lt_zero_opt _ _ h⟩,
      ⟨ite_lt_zero_q _ _ h, ite_lt_zero_opt _ _ h⟩⟩

/-- C5 witness: the amended totality statement evaluated on the document with
empty sections — a missing behavior flag yields 0 on both paths. -/
theorem c5_missing_data_defaults_witness :
    trainValue ⟨some [], some [], [], []⟩ "uses_network" = 0 ∧
      predSlot ⟨some [], some [], [], []⟩ "uses_network" = some 0 :=
  (c5_missing_data_defaults_amended [] [] [] []).1 "uses_network" (by decide) rfl

/-- C6: the claim asserts an explicitly supplied label is always recorded
unchanged.  This is false for `MEEFOrchestrator.update_catalog`: a path
containing a "malicious" segment overwrites any supplied label, so the row
appended for an explicit label "dummy" records "malicious" instead. -/
theorem c6_path_overrides_explicit_label_cex :
    rowsOf (orch_update_catalog (fun _ => "d0") .absent
        ⟨"samples/malicious/a.asm", some []⟩ "out/a_ir.json" none "dummy" "t") =
      [⟨"d0", "malicious", "local", "t", "samples/malicious/a.asm",
        "out/a_ir.json", "none"⟩] ∧
    ("malicious" : String) ≠ "dummy" := by
  decide

/-- C6 (amended): in the CLI processor, a supplied label other than the
default "unknown" is recorded unchanged, and only the default triggers
path-based inference (malicious/malware to malicious, then benign/clean to
benign, else unknown, on the lowercased path).  In the interactive
orchestrator the priority is reversed: a "malicious" path substring
overwrites any supplied label (and "benign" likewise), and the supplied label
survives only when neither occurs; the "malware"/"clean" vocabulary is not
consulted there. -/
theorem c6_label_recording_amended :
    (∀ (digest : List Nat → String) (sample : SampleFile) (irPath : String)
       (ird : Option IRDoc) (label now : String), label ≠ "unknown" →
       (cli_catalogEntry digest sample irPath ird label now).label = label) ∧
    (∀ (digest : List Nat → String) (sample : SampleFile) (irPath : String)
       (ird : Option IRDoc) (now : String),
       (cli_catalogEntry digest sample irPath ird "unknown" now).label =
         (if strContains (strLower sample.path) "malicious" ||
             strContains (strLower sample.path) "malware" then "malicious"
          else if strContains (strLower sample.path) "benign" ||
             strContains (strLower sample.path) "clean" then "benign"
          else "unknown")) ∧
    (∀ (digest : List Nat → String) (sample : SampleFile) (irPath : String)
       (ird : Option IRDoc) (label now : String),
       strContains (strLower sample.path) "malicious" = true →
       (orch_catalogEntry digest sample irPath ird label now).label = "malicious") ∧
    (∀ (digest : List Nat → String) (sample : SampleFile) (irPath : String)
       (ird : Option IRDoc) (label now : String),
       strContains (strLower sample.path) "malicious" = false →
       strContains (strLower sample.path) "benign" = false →
       (orch_catalogEntry digest sample irPath ird label now).label = label) := by
  refine ⟨?_, ?_, ?_, ?_⟩
  · intro digest sample irPath ird label now h
    simp [cli_catalogEntry, cli_inferLabel, h]
  · intro digest sample irPath ird now
    simp [cli_catalogEntry, cli_inferLabel]
  · intro digest sample irPath ird label now h
    simp [orch_catalogEntry, orch_inferLabel, h]
  · intro digest sample irPath ird label now h1 h2
    simp [orch_catalogEntry, orch_inferLabel, h1, h2]

/-- C6 witness: the amended characterizations at concrete updates — the CLI
records an explicit "benign" unchanged even under a malware path, and the
orchestrator keeps the supplied label on a neutral path. -/
theorem c6_label_recording_witness :
    (cli_catalogEntry (fun _ => "d0") ⟨"x/malware/a.asm", some []⟩ "o" none
        "benign" "t").label = "benign" ∧
    (orch_catalogEntry (fun _ => "d0") ⟨"x/neutral/a.asm", some []⟩ "o" none
        "dummy" "t").label = "dummy" :=
  ⟨c6_label_recording_amended.1 (fun _ => "d0") ⟨"x/malware/a.asm", some []⟩ "o"
     none "benign" "t" (by decide),
   c6_label_recording_amended.2.2.2 (fun _ => "d0") ⟨"x/neutral/a.asm", some []⟩
     "o" none "dummy" "t" (by decide) (by decide)⟩

/-- C7: an analyzer invocation that exceeds its timeout is classified by the
dedicated timeout branch of `run_parser` — a report distinct from the
nonzero-exit branch — and the per-item pipeline then skips the catalog update
entirely, so the sample produces no catalog entry and hence no feature row in
the dataset built from the catalog. -/
theorem c7_timeout_isolated (digest : List Nat → String) (env : ParseEnv)
    (st : CatalogFile) (sample : SampleFile) (irPath : String)
    (ird : Option IRDoc) (label now : String) (updateCat : Bool)
    (irOf : String → Option IRDoc)
    (hdisk : env.parserOnDisk = true) (htime : env.result = .timeout) :
    runParser env = .timedOut ∧ runParser env ≠ .toolFailed ∧
      process_sample digest env st sample irPath ird label now updateCat = (false, st) ∧
      featureDataset irOf
          (process_sample digest env st sample irPath ird label now updateCat).2 =
        featureDataset irOf st := by
  rcases env with ⟨pd, res, art⟩
  simp only at hdisk htime
  subst hdisk htime
  refine ⟨rfl, ?_, rfl, rfl⟩
  intro h
  exact absurd h (by simp [runParser])

/-- C7 witness: the timeout conclusions at one concrete invocation. -/
theorem c7_timeout_isolated_witness :
    runParser ⟨true, .timeout, false⟩ = .timedOut ∧
      runParser ⟨true, .timeout, false⟩ ≠ .toolFailed ∧
      process_sample (fun _ => "d0") ⟨true, .timeout, false⟩ .absent
          ⟨"p.asm", some []⟩ "o" none "unknown" "t" true = (false, .absent) ∧
      featureDataset (fun _ => none)
          (process_sample (fun _ => "d0") ⟨true, .timeout, false⟩ .absent
            ⟨"p.asm", some []⟩ "o" none "unknown" "t" true).2 =
        featureDataset (fun _ => none) .absent :=
  c7_timeout_isolated (fun _ => "d0") ⟨true, .timeout, false⟩ .absent
    ⟨"p.asm", some []⟩ "o" none "unknown" "t" true (fun _ => none) rfl rfl

/-- C8: a dry run reports exactly one planned input-to-output-artifact mapping
per discovered sample (the same artifact paths the real run would use) and
performs no other effect: the analyzer subprocess is never invoked and the
catalog ledger is left exactly as it was. -/
theorem c8_dry_run_frame (digest : List Nat → String)
    (envOf : SampleFile → ParseEnv) (irdOf : SampleFile → Option IRDoc)
    (outputDir : String) (samples : List SampleFile) (label now : String)
    (updateCat : Bool) (st : CatalogFile) :
    (mainAfterDiscovery true digest envOf irdOf outputDir samples label now
        updateCat st).plannedMappings =
      samples.map (fun s => (s.path, irPathFor outputDir s.path)) ∧
    (mainAfterDiscovery true digest envOf irdOf outputDir samples label now
        updateCat st).plannedMappings.length = samples.length ∧
    (mainAfterDiscovery true digest envOf irdOf outputDir samples label now
        updateCat st).toolInvocations = [] ∧
    (mainAfterDiscovery true digest envOf irdOf outputDir samples label now
        updateCat st).catalog = st :=
  ⟨rfl, by simp [mainAfterDiscovery], rfl, rfl⟩

/-- C8 witness: a concrete dry run over two samples. -/
theorem c8_dry_run_frame_witness :
    (mainAfterDiscovery true (fun _ => "d0") (fun _ => ⟨true, .exited 0, true⟩)
        (fun _ => none) "out" [⟨"a.asm", some []⟩, ⟨"b.asm", some []⟩]
        "unknown" "t" true .absent).plannedMappings.length = 2 ∧
    (mainAfterDiscovery true (fun _ => "d0") (fun _ => ⟨true, .exited 0, true⟩)
        (fun _ => none) "out" [⟨"a.asm", some []⟩, ⟨"b.asm", some []⟩]
        "unknown" "t" true .absent).toolInvocations = [] ∧
    (mainAfterDiscovery true (fun _ => "d0") (fun _ => ⟨true, .exited 0, true⟩)
        (fun _ => none) "out" [⟨"a.asm", some []⟩, ⟨"b.asm", some []⟩]
        "unknown" "t" true .absent).catalog = .absent :=
  ⟨(c8_dry_run_frame (fun _ => "d0") (fun _ => ⟨true, .exited 0, true⟩)
      (fun _ => none) "out" [⟨"a.asm", some []⟩, ⟨"b.asm", some []⟩]
      "unknown" "t" true .absent).2.1,
   (c8_dry_run_frame (fun _ => "d0") (fun _ => ⟨true, .exited 0, true⟩)
      (fun _ => none) "out" [⟨"a.asm", some []⟩, ⟨"b.asm", some []⟩]
      "unknown" "t" true .absent).2.2.1,
   (c8_dry_run_frame (fun _ => "d0") (fun _ => ⟨true, .exited 0, true⟩)
      (fun _ => none) "out" [⟨"a.asm", some []⟩, ⟨"b.asm", some []⟩]
      "unknown" "t" true .absent).2.2.2⟩

/-- C9: the claim asserts the dedup-check-then-append sequence runs under
mutual exclusion, so that no interleaving of two workers can both observe a
fingerprint as new and append duplicate rows.  This is false: the thread pool
of `process_batch` takes no lock, and the interleaving in which both workers
read the snapshot before either appends leaves two rows with the same
fingerprint in an initially clean ledger. -/
theorem c9_race_duplicate_append_cex :
    countFp CatalogFile.absent "f0" ≤ 1 ∧
      countFp
        (raceExec [⟨"f0", "unknown", "local", "t", "p", "q", "none"⟩,
                   ⟨"f0", "unknown", "local", "t", "p", "q", "none"⟩]
          .absent [0, 1, 0, 1]) "f0" = 2 := by
  decide

/-- C9 (amended): the code takes no lock, so the mutual-exclusion property
fails (see the counterexample); what holds is that a schedule in which each
worker's read-check-append runs without interruption is exactly the
sequential composition of the two `update_catalog` calls, and such serialized
execution leaves exactly one row per fingerprint. -/
theorem c9_serialized_dedup_amended (e1 e2 : Entry) (st : CatalogFile) (f : String)
    (h1 : e1.sha256 = f) (h2 : e2.sha256 = f) (hst : countFp st f ≤ 1) :
    raceExec [e1, e2] st [0, 0, 1, 1] = updateCatalogRow (updateCatalogRow st e1) e2 ∧
      countFp (raceExec [e1, e2] st [0, 0, 1, 1]) f = 1 :=
  ⟨rfl,
   updateCatalogRow_count_eq_one _ e2 f h2
     (updateCatalogRow_count_eq_one st e1 f h1 hst).le⟩

/-- C9 witness: the serialized schedule at concrete entries yields one row. -/
theorem c9_serialized_dedup_witness :
    raceExec [(⟨"f0", "b", "local", "t", "p", "q", "none"⟩ : Entry),
              ⟨"f0", "b", "local", "t", "p", "q", "none"⟩]
        .absent [0, 0, 1, 1] =
      updateCatalogRow
        (updateCatalogRow .absent ⟨"f0", "b", "local", "t", "p", "q", "none"⟩)
        ⟨"f0", "b", "local", "t", "p", "q", "none"⟩ ∧
    countFp
        (raceExec [(⟨"f0", "b", "local", "t", "p", "q", "none"⟩ : Entry),
                   ⟨"f0", "b", "local", "t", "p", "q", "none"⟩]
          .absent [0, 0, 1, 1]) "f0" = 1 :=
  c9_serialized_dedup_amended ⟨"f0", "b", "local", "t", "p", "q", "none"⟩
    ⟨"f0", "b", "local", "t", "p", "q", "none"⟩ .absent "f0" rfl rfl (by decide)

/-- C10: a file unreadable at hashing time gets the fixed literal fingerprint
"HASH_ERROR"; `update_catalog` uses exactly that literal in the dedup check
and the appended row (so all unreadable files act as one sample); and under
the dedup invariant at most one "HASH_ERROR" row can ever exist. -/
theorem c10_hash_error_dedup :
    (∀ (digest : List Nat → String) (p : String),
       calculate_sha256 digest ⟨p, none⟩ = "HASH_ERROR") ∧
    (∀ (digest : List Nat → String) (st : CatalogFile) (p irPath : String)
       (ird : Option IRDoc) (label now : String),
       cli_update_catalog digest st ⟨p, none⟩ irPath ird label now =
         updateCatalogRow st
           ⟨"HASH_ERROR", cli_inferLabel label p, "local", now, p, irPath,
            cli_behaviorNotes ird⟩) ∧
    (∀ (st : CatalogFile) (es : List Entry), countFp st "HASH_ERROR" ≤ 1 →
       countFp (es.foldl updateCatalogRow st) "HASH_ERROR" ≤ 1) :=
  ⟨fun _ _ => rfl, fun _ _ _ _ _ _ _ => rfl,
   fun st es h => foldl_updateCatalogRow_le "HASH_ERROR" es st h⟩

/-- C10 witness: one unreadable file hashed, and the invariant applied to one
concrete "HASH_ERROR" update starting from an absent ledger. -/
theorem c10_hash_error_dedup_witness :
    calculate_sha256 (fun _ => "d0") ⟨"p.asm", none⟩ = "HASH_ERROR" ∧
      countFp
        ([(⟨"HASH_ERROR", "unknown", "local", "t", "p.asm", "q", "none"⟩ : Entry)].foldl
          updateCatalogRow .absent) "HASH_ERROR" ≤ 1 :=
  ⟨c10_hash_error_dedup.1 (fun _ => "d0") "p.asm",
   c10_hash_error_dedup.2.2 .absent
     [⟨"HASH_ERROR", "unknown", "local", "t", "p.asm", "q", "none"⟩] (by decide)⟩
